import Mathlib

/-!
Shallow embedding of the `mycelia` graph core (`src/graph/core.rs`).

Modelling choices:
* A node allocation (`Arc<Node>` in Rust) is identified by a `Nat` id; the
  `heap` field of `Graph` maps ids to `Node` records.  `Arc::ptr_eq` is
  equality of ids.
* `Weak<Node>` back-references in children lists are stored as plain ids; a
  weak reference upgrades exactly when the node is still strongly owned.
  In every state the development exercises, the strong owners are the
  registry (`nodes`) and the graph's `root` field, so `upgrade` succeeds iff
  the id is the root id or occurs as a registry value (`Graph.isAlive`).
* The mpsc event channel is modelled by `events_tx : Option Bool`:
  `none` mirrors `events_tx: None` (`new_without_events`), `some true` a
  sender whose receiver is alive, `some false` a sender whose receiver was
  dropped (sends fail).  Each operation returns the list of events it
  successfully enqueued.
* Rust methods mutate `&self` in place; here every operation returns the
  result together with the post-state, and errors never discard the state
  (matching the absence of rollback in the source).
-/

inductive GraphEvent where
  | NodeAdded : String → GraphEvent
  | EdgeAdded : String → String → GraphEvent
deriving DecidableEq, Repr

/-- The two `anyhow` error messages produced in `core.rs`:
`"Failed to send NodeAdded event: …"` (line 154) and `"Event dropped: …"`
(line 131). -/
inductive GraphError where
  | nodeAddedSendFailed : GraphError
  | eventDropped : GraphError
deriving DecidableEq, Repr

/-- Rust `struct Node` with fields `data: String` and
`children: RwLock<Vec<Weak<Node>>>`; children hold allocation ids standing
for the weak pointers. -/
structure Node where
  data : String
  children : List Nat
deriving DecidableEq, Repr

/-- Rust `Node::new`. -/
def Node.new (data : String) : Node :=
  { data := data, children := [] }

/-- Rust `Node::get_data`. -/
def Node.get_data (n : Node) : String :=
  n.data

/-- Rust `struct Graph` with fields `root: Arc<Node>`,
`nodes: RwLock<HashMap<String, Arc<Node>>>` and
`events_tx: Option<UnboundedSender<GraphEvent>>`.  `nodes` is an association
list with pairwise-distinct keys in every reachable state; `heap` records
every allocation ever made; `nextId` is the next fresh allocation id. -/
structure Graph where
  root : Nat
  nodes : List (String × Nat)
  heap : List (Nat × Node)
  nextId : Nat
  events_tx : Option Bool
deriving DecidableEq, Repr

deriving instance DecidableEq for Except

/-- A weak reference to allocation `i` upgrades iff `i` is still strongly
owned: by the graph's `root` field or by a registry entry. -/
def Graph.isAlive (g : Graph) (i : Nat) : Bool :=
  i == g.root || g.nodes.any (fun e => e.2 == i)

/-- Rust `Node::get_children`: read the children list, `filter_map` over
`Weak::upgrade` (dead references are dropped, order preserved); the returned
`Vec<Arc<Node>>` is the list of ids of the nodes that resolved. -/
def Node.get_children (g : Graph) (n : Node) : List Nat :=
  n.children.filter (fun i => g.isAlive i)

/-- Rust `Graph::new` (the returned receiver is alive:
`events_tx = some true`). -/
def Graph.new : Graph :=
  { root := 0
    nodes := [("root", 0)]
    heap := [(0, Node.new "root")]
    nextId := 1
    events_tx := some true }

/-- Rust `Graph::new_without_events` (test constructor, `events_tx: None`). -/
def Graph.new_without_events : Graph :=
  { Graph.new with events_tx := none }

/-- The external consumer drops the event receiver: subsequent sends fail. -/
def Graph.dropReceiver (g : Graph) : Graph :=
  { g with events_tx := g.events_tx.map (fun _ => false) }

/-- Rust `Graph::get_root`. -/
def Graph.get_root (g : Graph) : Nat :=
  g.root

/-- Rust `Graph::node_count`. -/
def Graph.node_count (g : Graph) : Nat :=
  g.nodes.length

/-- Rust `Graph::contains`. -/
def Graph.containsLabel (g : Graph) (content : String) : Bool :=
  (g.nodes.lookup content).isSome

/-- Rust `Graph::get_node`. -/
def Graph.get_node (g : Graph) (content : String) : Option Nat :=
  g.nodes.lookup content

/-- The critical section of `get_or_create_node` (core.rs lines 138-149):
under the registry write lock, `entry(content)`: vacant → allocate a fresh
node with empty children and insert it; occupied → return the existing
node.  Returns `((node, is_new), post-state)`. -/
def Graph.getOrCreateCore (g : Graph) (content : String) :
    (Nat × Bool) × Graph :=
  match g.nodes.lookup content with
  | some i => ((i, false), g)
  | none =>
      ((g.nextId, true),
        { g with
          nodes := (content, g.nextId) :: g.nodes
          heap := (g.nextId, Node.new content) :: g.heap
          nextId := g.nextId + 1 })

/-- The state after a vacant-entry insertion of `l` (the `Entry::Vacant`
branch of `get_or_create_node`). -/
def Graph.insertFresh (g : Graph) (l : String) : Graph :=
  { g with
    nodes := (l, g.nextId) :: g.nodes
    heap := (g.nextId, Node.new l) :: g.heap
    nextId := g.nextId + 1 }

/-- Rust `Graph::get_or_create_node` (core.rs lines 137-160): run the
critical section, then, if the node is new and a sender exists, send
`NodeAdded(content)`; a failed send (receiver dropped) propagates as an
error, after the insertion has committed. -/
def Graph.get_or_create_node (g : Graph) (content : String) :
    Except GraphError Nat × Graph × List GraphEvent :=
  match g.getOrCreateCore content with
  | ((i, is_new), g1) =>
    if is_new then
      match g1.events_tx with
      | none => (Except.ok i, g1, [])
      | some alive =>
          if alive then
            (Except.ok i, g1, [GraphEvent.NodeAdded content])
          else
            (Except.error GraphError.nodeAddedSendFailed, g1, [])
    else
      (Except.ok i, g1, [])

/-- Replace the node stored at id `i` by `f` of it (in-place mutation of the
allocation that both the registry and any handle alias). -/
def heapUpdate (heap : List (Nat × Node)) (i : Nat) (f : Node → Node) :
    List (Nat × Node) :=
  heap.map (fun e => if e.1 == i then (e.1, f e.2) else e)

/-- The children list currently stored in allocation `i` (the allocation
exists whenever `i` was returned by `getOrCreateCore`). -/
def Graph.childrenOf (g : Graph) (i : Nat) : List Nat :=
  ((g.heap.lookup i).map Node.children).getD []

/-- Rust `Graph::add_edge` (core.rs lines 94-135): get-or-create parent then
child (each `?` propagates a failed `NodeAdded` send); under the parent's
children write lock scan for an entry that upgrades and is `ptr_eq` to the
child — if found, log a warning and return `Ok(())`; otherwise push a weak
reference to the child; after releasing the lock send `EdgeAdded`, a failed
send propagating as an error. -/
def Graph.add_edge (g : Graph) (parent_content child_content : String) :
    Except GraphError Unit × Graph × List GraphEvent :=
  match g.get_or_create_node parent_content with
  | (Except.error e, g1, ev1) => (Except.error e, g1, ev1)
  | (Except.ok pid, g1, ev1) =>
    match g1.get_or_create_node child_content with
    | (Except.error e, g2, ev2) => (Except.error e, g2, ev1 ++ ev2)
    | (Except.ok cid, g2, ev2) =>
      if (g2.childrenOf pid).any (fun c => g2.isAlive c && c == cid) then
        (Except.ok (), g2, ev1 ++ ev2)
      else
        let g3 := { g2 with
          heap := heapUpdate g2.heap pid
            (fun n => { n with children := n.children ++ [cid] }) }
        match g3.events_tx with
        | none => (Except.ok (), g3, ev1 ++ ev2)
        | some alive =>
            if alive then
              (Except.ok (), g3,
                ev1 ++ ev2 ++
                  [GraphEvent.EdgeAdded parent_content child_content])
            else
              (Except.error GraphError.eventDropped, g3, ev1 ++ ev2)

/-- Whether the duplicate-edge check of `add_edge` would fire in state `g`
for labels already present: some entry of the parent's children list
upgrades to a node `ptr_eq` to the canonical node of `c`. -/
def Graph.edgeExists (g : Graph) (p c : String) : Bool :=
  match g.nodes.lookup p, g.nodes.lookup c with
  | some pid, some cid =>
      (g.childrenOf pid).any (fun j => g.isAlive j && j == cid)
  | _, _ => false

/-- Direct removal of a registry entry, as the dead-reference tests do with
`graph.nodes.write().unwrap().remove(label)`; not part of the public API. -/
def Graph.removeEntry (g : Graph) (label : String) : Graph :=
  { g with nodes := g.nodes.filter (fun e => !(e.1 == label)) }

/-- The in-scope mutating operations (queries do not change state). -/
inductive Op where
  | addEdge (p c : String)
  | getOrCreate (l : String)

/-- Run one operation, keeping the post-state and the enqueued events. -/
def Graph.runOp (g : Graph) (o : Op) : Graph × List GraphEvent :=
  match o with
  | Op.addEdge p c => (g.add_edge p c).2
  | Op.getOrCreate l => (g.get_or_create_node l).2

/-- Run a sequence of operations, concatenating the enqueued events. -/
def Graph.runOps (g : Graph) : List Op → Graph × List GraphEvent
  | [] => (g, [])
  | o :: rest =>
      (((g.runOp o).1.runOps rest).1,
        (g.runOp o).2 ++ ((g.runOp o).1.runOps rest).2)

/-- A graph with receiver dropped in which labels "root" and "b" are both
registered and the edge b → root does not exist. -/
def gDropped : Graph := ((Graph.new.add_edge "root" "b").2.1).dropReceiver

/-- The graph root → A, root → B used by the dead-reference scenario. -/
def demoGraph : Graph :=
  ((Graph.new.add_edge "root" "A").2.1.add_edge "root" "B").2.1

theorem getOrCreateCore_present {g : Graph} {l : String} {i : Nat}
    (h : g.nodes.lookup l = some i) :
    g.getOrCreateCore l = ((i, false), g) := by
  simp [Graph.getOrCreateCore, h]

theorem getOrCreateCore_absent {g : Graph} {l : String}
    (h : g.nodes.lookup l = none) :
    g.getOrCreateCore l = ((g.nextId, true), g.insertFresh l) := by
  simp [Graph.getOrCreateCore, h, Graph.insertFresh]

theorem gocn_present {g : Graph} {l : String} {i : Nat}
    (h : g.nodes.lookup l = some i) :
    g.get_or_create_node l = (Except.ok i, g, []) := by
  simp [Graph.get_or_create_node, getOrCreateCore_present h]

theorem gocn_absent_none {g : Graph} {l : String}
    (h : g.nodes.lookup l = none) (htx : g.events_tx = none) :
    g.get_or_create_node l = (Except.ok g.nextId, g.insertFresh l, []) := by
  simp [Graph.get_or_create_node, getOrCreateCore_absent h, Graph.insertFresh,
    htx]

theorem gocn_absent_alive {g : Graph} {l : String}
    (h : g.nodes.lookup l = none) (htx : g.events_tx = some true) :
    g.get_or_create_node l =
      (Except.ok g.nextId, g.insertFresh l, [GraphEvent.NodeAdded l]) := by
  simp [Graph.get_or_create_node, getOrCreateCore_absent h, Graph.insertFresh,
    htx]

theorem gocn_absent_dropped {g : Graph} {l : String}
    (h : g.nodes.lookup l = none) (htx : g.events_tx = some false) :
    g.get_or_create_node l =
      (Except.error GraphError.nodeAddedSendFailed, g.insertFresh l, []) := by
  simp [Graph.get_or_create_node, getOrCreateCore_absent h, Graph.insertFresh,
    htx]

theorem gocn_graph_eq {g : Graph} {l : String} :
    (g.get_or_create_node l).2.1 = (g.getOrCreateCore l).2 := by
  unfold Graph.get_or_create_node
  rcases hc : g.getOrCreateCore l with ⟨⟨i, is_new⟩, g1⟩
  cases is_new
  · rfl
  · cases htx : g1.events_tx with
    | none => simp [htx]
    | some alive => cases alive <;> simp [htx]

theorem core_tx {g : Graph} {l : String} :
    (g.getOrCreateCore l).2.events_tx = g.events_tx := by
  rcases h : g.nodes.lookup l with _ | i
  · simp [getOrCreateCore_absent h, Graph.insertFresh]
  · simp [getOrCreateCore_present h]

theorem core_root {g : Graph} {l : String} :
    (g.getOrCreateCore l).2.root = g.root := by
  rcases h : g.nodes.lookup l with _ | i
  · simp [getOrCreateCore_absent h, Graph.insertFresh]
  · simp [getOrCreateCore_present h]

theorem lookup_insertFresh {g : Graph} {l L : String} :
    (g.insertFresh l).nodes.lookup L =
      if L == l then some g.nextId else g.nodes.lookup L := by
  simp only [Graph.insertFresh, List.lookup]
  cases hL : L == l <;> simp [hL]

theorem core_contains {g : Graph} {l L : String} :
    (g.getOrCreateCore l).2.containsLabel L =
      ((L == l) || g.containsLabel L) := by
  rcases h : g.nodes.lookup l with _ | i
  · simp only [getOrCreateCore_absent h, Graph.containsLabel,
      lookup_insertFresh]
    cases hL : L == l <;> simp [hL]
  · simp only [getOrCreateCore_present h]
    by_cases hL : L = l
    · subst hL
      simp [Graph.containsLabel, h]
    · have hb : (L == l) = false := by simp [hL]
      simp [hb]

theorem core_lookup_preserve {g : Graph} {l L : String} {i : Nat}
    (h : g.nodes.lookup L = some i) :
    (g.getOrCreateCore l).2.nodes.lookup L = some i := by
  rcases hl : g.nodes.lookup l with _ | j
  · simp only [getOrCreateCore_absent hl, lookup_insertFresh]
    cases hL : L == l
    · simp [hL, h]
    · exfalso
      have : L = l := by simpa using hL
      rw [this, hl] at h
      exact Option.noConfusion h
  · simp [getOrCreateCore_present hl, h]

theorem core_len {g : Graph} {l : String} :
    g.nodes.length ≤ (g.getOrCreateCore l).2.nodes.length := by
  rcases hl : g.nodes.lookup l with _ | j
  · simp [getOrCreateCore_absent hl, Graph.insertFresh]
  · simp [getOrCreateCore_present hl]

theorem gocn_contains {g : Graph} {l L : String} :
    (g.get_or_create_node l).2.1.containsLabel L =
      ((L == l) || g.containsLabel L) := by
  rw [gocn_graph_eq]
  exact core_contains

theorem gocn_lookup_preserve {g : Graph} {l L : String} {i : Nat}
    (h : g.nodes.lookup L = some i) :
    (g.get_or_create_node l).2.1.nodes.lookup L = some i := by
  rw [gocn_graph_eq]
  exact core_lookup_preserve h

theorem gocn_len {g : Graph} {l : String} :
    g.nodes.length ≤ (g.get_or_create_node l).2.1.nodes.length := by
  rw [gocn_graph_eq]
  exact core_len

theorem gocn_tx {g : Graph} {l : String} :
    (g.get_or_create_node l).2.1.events_tx = g.events_tx := by
  rw [gocn_graph_eq]
  exact core_tx

theorem gocn_root {g : Graph} {l : String} :
    (g.get_or_create_node l).2.1.root = g.root := by
  rw [gocn_graph_eq]
  exact core_root

theorem gocn_ok_of_alive {g : Graph} {l : String}
    (htx : g.events_tx = some true) :
    g.get_or_create_node l =
      (Except.ok (g.getOrCreateCore l).1.1, (g.getOrCreateCore l).2,
        (g.get_or_create_node l).2.2) := by
  rcases hl : g.nodes.lookup l with _ | j
  · simp [gocn_absent_alive hl htx, getOrCreateCore_absent hl]
  · simp [gocn_present hl, getOrCreateCore_present hl]

theorem gocn_count {g : Graph} {l L : String}
    (htx : g.events_tx = some true) :
    ((g.get_or_create_node l).2.2).count (GraphEvent.NodeAdded L) =
      (if (g.get_or_create_node l).2.1.containsLabel L &&
          !(g.containsLabel L) then 1 else 0) := by
  rcases hl : g.nodes.lookup l with _ | j
  · rw [gocn_absent_alive hl htx]
    by_cases hL : L = l
    · subst hL
      simp only [Graph.containsLabel, lookup_insertFresh]
      simp [hl, List.count_singleton]
    · have hb : (L == l) = false := by simp [hL]
      have hb2 : (GraphEvent.NodeAdded l == GraphEvent.NodeAdded L) = false := by
        simp
        exact fun hh => hL hh.symm
      simp only [Graph.containsLabel, lookup_insertFresh, hb, if_false]
      simp only [List.count_cons, hb2, List.count_nil]
      cases hcase : (List.lookup L g.nodes).isSome <;> simp [hcase]
  · rw [gocn_present hl]
    simp

theorem count_combine {b0 b1 b2 : Bool} (m1 : b0 = true → b1 = true)
    (m2 : b1 = true → b2 = true) :
    ((if b1 && !b0 then 1 else 0) + (if b2 && !b1 then 1 else 0) : Nat) =
      if b2 && !b0 then 1 else 0 := by
  cases b0 <;> cases b1 <;> cases b2 <;> simp_all

theorem add_edge_state (g : Graph) (p c : String) :
    ((g.add_edge p c).2.1.nodes =
        ((g.get_or_create_node p).2.1.get_or_create_node c).2.1.nodes ∨
      (g.add_edge p c).2.1.nodes = (g.get_or_create_node p).2.1.nodes) ∧
    (g.add_edge p c).2.1.events_tx = g.events_tx ∧
    (g.add_edge p c).2.1.root = g.root := by
  have htx1 : (g.get_or_create_node p).2.1.events_tx = g.events_tx := gocn_tx
  have hr1 : (g.get_or_create_node p).2.1.root = g.root := gocn_root
  rcases e1 : g.get_or_create_node p with ⟨r1, g1, ev1⟩
  rw [e1] at htx1 hr1
  replace htx1 : g1.events_tx = g.events_tx := htx1
  replace hr1 : g1.root = g.root := hr1
  cases r1 with
  | error e =>
      refine ⟨Or.inr ?_, ?_, ?_⟩ <;> simp [Graph.add_edge, e1, htx1, hr1]
  | ok pid =>
      have htx2 : (g1.get_or_create_node c).2.1.events_tx = g1.events_tx :=
        gocn_tx
      have hr2 : (g1.get_or_create_node c).2.1.root = g1.root := gocn_root
      rcases e2 : g1.get_or_create_node c with ⟨r2, g2, ev2⟩
      rw [e2] at htx2 hr2
      replace htx2 : g2.events_tx = g1.events_tx := htx2
      replace hr2 : g2.root = g1.root := hr2
      cases r2 with
      | error e =>
          refine ⟨Or.inl ?_, ?_, ?_⟩ <;>
            simp [Graph.add_edge, e1, e2, htx1, htx2, hr1, hr2]
      | ok cid =>
          refine ⟨Or.inl ?_, ?_, ?_⟩ <;>
            [skip; skip; skip] <;>
            · simp only [Graph.add_edge, e1, e2]
              cases hdup : (g2.childrenOf pid).any
                  (fun x => g2.isAlive x && x == cid)
              · simp only [hdup, Bool.false_eq_true, if_false]
                cases htx3 : g2.events_tx with
                | none => simp_all
                | some alive => cases alive <;> simp_all
              · simp_all

theorem runOp_tx {g : Graph} {o : Op} :
    (g.runOp o).1.events_tx = g.events_tx := by
  cases o with
  | addEdge p c => exact (add_edge_state g p c).2.1
  | getOrCreate l => exact gocn_tx

theorem runOp_root {g : Graph} {o : Op} :
    (g.runOp o).1.root = g.root := by
  cases o with
  | addEdge p c => exact (add_edge_state g p c).2.2
  | getOrCreate l => exact gocn_root

theorem runOp_lookup_preserve {g : Graph} {o : Op} {L : String} {i : Nat}
    (h : g.nodes.lookup L = some i) :
    (g.runOp o).1.nodes.lookup L = some i := by
  cases o with
  | addEdge p c =>
      rcases (add_edge_state g p c).1 with hn | hn
      · show (g.add_edge p c).2.1.nodes.lookup L = some i
        rw [hn]
        exact gocn_lookup_preserve (gocn_lookup_preserve h)
      · show (g.add_edge p c).2.1.nodes.lookup L = some i
        rw [hn]
        exact gocn_lookup_preserve h
  | getOrCreate l => exact gocn_lookup_preserve h

theorem runOp_len {g : Graph} {o : Op} :
    g.nodes.length ≤ (g.runOp o).1.nodes.length := by
  cases o with
  | addEdge p c =>
      rcases (add_edge_state g p c).1 with hn | hn
      · show g.nodes.length ≤ (g.add_edge p c).2.1.nodes.length
        rw [hn]
        exact le_trans gocn_len gocn_len
      · show g.nodes.length ≤ (g.add_edge p c).2.1.nodes.length
        rw [hn]
        exact gocn_len
  | getOrCreate l => exact gocn_len

theorem lookup_none_not_mem {l : List (String × Nat)} {L : String}
    (h : l.lookup L = none) : L ∉ l.map Prod.fst := by
  induction l with
  | nil => simp
  | cons e rest ih =>
      obtain ⟨k, v⟩ := e
      cases hk : (L == k) with
      | true =>
          simp only [List.lookup, hk] at h
          exact Option.noConfusion h
      | false =>
          simp only [List.lookup, hk] at h
          have hne : ¬L = k := by simpa using hk
          simp only [List.map_cons, List.mem_cons]
          rintro (h1 | h2)
          · exact hne h1
          · exact ih h h2

theorem core_keys_nodup {g : Graph} {l : String}
    (h : (g.nodes.map Prod.fst).Nodup) :
    ((g.getOrCreateCore l).2.nodes.map Prod.fst).Nodup := by
  rcases hl : g.nodes.lookup l with _ | i
  · simp only [getOrCreateCore_absent hl, Graph.insertFresh, List.map_cons]
    exact List.nodup_cons.mpr ⟨lookup_none_not_mem hl, h⟩
  · simpa [getOrCreateCore_present hl] using h

theorem gocn_keys_nodup {g : Graph} {l : String}
    (h : (g.nodes.map Prod.fst).Nodup) :
    ((g.get_or_create_node l).2.1.nodes.map Prod.fst).Nodup := by
  rw [gocn_graph_eq]
  exact core_keys_nodup h

theorem runOp_keys_nodup {g : Graph} {o : Op}
    (h : (g.nodes.map Prod.fst).Nodup) :
    ((g.runOp o).1.nodes.map Prod.fst).Nodup := by
  cases o with
  | addEdge p c =>
      rcases (add_edge_state g p c).1 with hn | hn
      · show (((g.add_edge p c).2.1.nodes).map Prod.fst).Nodup
        rw [hn]
        exact gocn_keys_nodup (gocn_keys_nodup h)
      · show (((g.add_edge p c).2.1.nodes).map Prod.fst).Nodup
        rw [hn]
        exact gocn_keys_nodup h
  | getOrCreate l => exact gocn_keys_nodup h

theorem runOps_lookup_preserve {L : String} {i : Nat} :
    ∀ (ops : List Op) {g : Graph}, g.nodes.lookup L = some i →
      (g.runOps ops).1.nodes.lookup L = some i := by
  intro ops
  induction ops with
  | nil => intro g h; simpa [Graph.runOps] using h
  | cons o rest ih =>
      intro g h
      simp only [Graph.runOps]
      exact ih (runOp_lookup_preserve h)

theorem runOps_tx {ops : List Op} : ∀ {g : Graph},
    (g.runOps ops).1.events_tx = g.events_tx := by
  induction ops with
  | nil => intro g; simp [Graph.runOps]
  | cons o rest ih =>
      intro g
      simp only [Graph.runOps]
      exact ih.trans runOp_tx

theorem runOps_root {ops : List Op} : ∀ {g : Graph},
    (g.runOps ops).1.root = g.root := by
  induction ops with
  | nil => intro g; simp [Graph.runOps]
  | cons o rest ih =>
      intro g
      simp only [Graph.runOps]
      exact ih.trans runOp_root

theorem runOps_len {ops : List Op} : ∀ {g : Graph},
    g.nodes.length ≤ (g.runOps ops).1.nodes.length := by
  induction ops with
  | nil => intro g; simp [Graph.runOps]
  | cons o rest ih =>
      intro g
      simp only [Graph.runOps]
      exact le_trans runOp_len ih

theorem runOps_keys_nodup {ops : List Op} : ∀ {g : Graph},
    (g.nodes.map Prod.fst).Nodup →
      ((g.runOps ops).1.nodes.map Prod.fst).Nodup := by
  induction ops with
  | nil => intro g h; simpa [Graph.runOps] using h
  | cons o rest ih =>
      intro g h
      simp only [Graph.runOps]
      exact ih (runOp_keys_nodup h)

theorem runOps_append {a b : List Op} : ∀ {g : Graph},
    g.runOps (a ++ b) =
      (((g.runOps a).1.runOps b).1,
        (g.runOps a).2 ++ ((g.runOps a).1.runOps b).2) := by
  induction a with
  | nil => intro g; simp [Graph.runOps]
  | cons o rest ih =>
      intro g
      simp only [List.cons_append, Graph.runOps, List.append_eq]
      rw [ih]
      simp [List.append_assoc]

theorem contains_iff {g : Graph} {L : String} :
    g.containsLabel L = true ↔ ∃ i, g.nodes.lookup L = some i := by
  simp [Graph.containsLabel, Option.isSome_iff_exists]

theorem runOp_contains_mono {g : Graph} {o : Op} {L : String}
    (h : g.containsLabel L = true) : (g.runOp o).1.containsLabel L = true := by
  obtain ⟨i, hi⟩ := contains_iff.mp h
  exact contains_iff.mpr ⟨i, runOp_lookup_preserve hi⟩

theorem runOps_contains_mono {ops : List Op} {g : Graph} {L : String}
    (h : g.containsLabel L = true) :
    (g.runOps ops).1.containsLabel L = true := by
  obtain ⟨i, hi⟩ := contains_iff.mp h
  exact contains_iff.mpr ⟨i, runOps_lookup_preserve ops hi⟩

theorem runOp_count {g : Graph} (o : Op) (L : String)
    (htx : g.events_tx = some true) :
    ((g.runOp o).2).count (GraphEvent.NodeAdded L) =
      if (g.runOp o).1.containsLabel L && !(g.containsLabel L) then 1
      else 0 := by
  cases o with
  | getOrCreate l => exact gocn_count htx
  | addEdge p c =>
      obtain ⟨ev1, e1⟩ :
          ∃ ev1, g.get_or_create_node p =
            (Except.ok (g.getOrCreateCore p).1.1, (g.getOrCreateCore p).2,
              ev1) :=
        ⟨_, gocn_ok_of_alive htx⟩
      set g1 := (g.getOrCreateCore p).2 with hg1
      have htx1 : g1.events_tx = some true := by rw [hg1, core_tx]; exact htx
      obtain ⟨ev2, e2⟩ :
          ∃ ev2, g1.get_or_create_node c =
            (Except.ok (g1.getOrCreateCore c).1.1, (g1.getOrCreateCore c).2,
              ev2) :=
        ⟨_, gocn_ok_of_alive htx1⟩
      set g2 := (g1.getOrCreateCore c).2 with hg2
      have htx2 : g2.events_tx = some true := by rw [hg2, core_tx]; exact htx1
      have c1 : ev1.count (GraphEvent.NodeAdded L) =
          if g1.containsLabel L && !(g.containsLabel L) then 1 else 0 := by
        have hcnt := gocn_count (g := g) (l := p) (L := L) htx
        rw [e1] at hcnt
        exact hcnt
      have c2 : ev2.count (GraphEvent.NodeAdded L) =
          if g2.containsLabel L && !(g1.containsLabel L) then 1 else 0 := by
        have hcnt := gocn_count (g := g1) (l := c) (L := L) htx1
        rw [e2] at hcnt
        exact hcnt
      have m1 : g.containsLabel L = true → g1.containsLabel L = true := by
        intro hb
        rw [hg1, core_contains, hb]
        simp
      have m2 : g1.containsLabel L = true → g2.containsLabel L = true := by
        intro hb
        rw [hg2, core_contains, hb]
        simp
      show ((g.add_edge p c).2.2).count (GraphEvent.NodeAdded L) =
        if (g.add_edge p c).2.1.containsLabel L && !(g.containsLabel L) then 1
        else 0
      simp only [Graph.add_edge, e1, e2]
      cases hdup : (g2.childrenOf (g.getOrCreateCore p).1.1).any
          (fun x => g2.isAlive x && x == (g1.getOrCreateCore c).1.1) with
      | true =>
          simp only [hdup, if_true]
          rw [List.count_append, c1, c2]
          exact count_combine m1 m2
      | false =>
          simp only [hdup, Bool.false_eq_true, if_false, htx2,
            eq_self_iff_true, if_true]
          rw [List.count_append, List.count_append, c1, c2]
          have hedge : ([GraphEvent.EdgeAdded p c].count
              (GraphEvent.NodeAdded L)) = 0 := by simp
          rw [hedge, Nat.add_zero]
          exact count_combine m1 m2

theorem runOps_count {ops : List Op} : ∀ {g : Graph} {L : String},
    g.events_tx = some true →
      ((g.runOps ops).2).count (GraphEvent.NodeAdded L) =
        if (g.runOps ops).1.containsLabel L && !(g.containsLabel L) then 1
        else 0 := by
  induction ops with
  | nil =>
      intro g L htx
      simp [Graph.runOps, Bool.and_not_self]
  | cons o rest ih =>
      intro g L htx
      have htx1 : (g.runOp o).1.events_tx = some true := by
        rw [runOp_tx]; exact htx
      have h1 := runOp_count o L htx
      have h2 := ih (g := (g.runOp o).1) (L := L) htx1
      have m1 : g.containsLabel L = true →
          (g.runOp o).1.containsLabel L = true :=
        runOp_contains_mono
      have m2 : (g.runOp o).1.containsLabel L = true →
          ((g.runOp o).1.runOps rest).1.containsLabel L = true :=
        runOps_contains_mono
      simp only [Graph.runOps, List.count_append]
      rw [h1, h2]
      exact count_combine m1 m2

theorem childrenOf_insertFresh {g : Graph} {l : String}
    (hfresh : g.heap.lookup g.nextId = none) (i : Nat) :
    (g.insertFresh l).childrenOf i = g.childrenOf i := by
  simp only [Graph.childrenOf, Graph.insertFresh, List.lookup]
  cases hi : (i == g.nextId) with
  | false => simp [hi]
  | true =>
      have : i = g.nextId := by simpa using hi
      subst this
      simp [hfresh, Node.new]

/-- C1.  On a fresh graph, `add_edge("root","child")` succeeds; the repeated
identical call leaves the graph unchanged (`node_count` still 2, root's
children still exactly one reference resolving to the canonical child node)
and emits no event — but, contradicting the claim and the repository's own
tests, it returns `Ok(())` instead of a `DuplicateEdge` error (core.rs line
120 returns `Ok(())` after the duplicate check fires). -/
theorem duplicate_edge_second_call :
    (Graph.new.add_edge "root" "child").1 = Except.ok () ∧
    ((Graph.new.add_edge "root" "child").2.1.add_edge "root" "child").1 =
      Except.ok () ∧
    ((Graph.new.add_edge "root" "child").2.1.add_edge "root" "child").2.1 =
      (Graph.new.add_edge "root" "child").2.1 ∧
    ((Graph.new.add_edge "root" "child").2.1.add_edge "root" "child").2.2 =
      [] ∧
    (Graph.new.add_edge "root" "child").2.1.node_count = 2 ∧
    (Graph.new.add_edge "root" "child").2.1.childrenOf 0 = [1] ∧
    (Graph.new.add_edge "root" "child").2.1.get_node "child" = some 1 := by
  decide

/-- C2 (counterexample).  `get_or_create_node` is not error-free: with the
event receiver dropped, creating a fresh label returns an error. -/
theorem get_or_create_can_fail :
    ((Graph.new.dropReceiver).get_or_create_node "x").1 =
      Except.error GraphError.nodeAddedSendFailed := by decide

/-- C2 (amended).  `get_or_create_node(label)`: if the label is present it
returns the existing node with `is_new = false` and the state unchanged; if
absent it inserts a new node with that label and empty children (committed
even when the send fails), returns it with `is_new = true`, and the call
succeeds unless the event receiver has been dropped, in which case it
returns the NodeAdded delivery error. -/
theorem get_or_create_contract (g : Graph) (label : String) :
    (∀ i : Nat, g.nodes.lookup label = some i →
        g.getOrCreateCore label = ((i, false), g) ∧
        g.get_or_create_node label = (Except.ok i, g, [])) ∧
    (g.nodes.lookup label = none →
        (g.getOrCreateCore label).1.2 = true ∧
        (g.getOrCreateCore label).1.1 = g.nextId ∧
        (g.getOrCreateCore label).2.nodes.lookup label = some g.nextId ∧
        (g.getOrCreateCore label).2.heap.lookup g.nextId =
          some (Node.new label) ∧
        (g.get_or_create_node label).2.1 = (g.getOrCreateCore label).2 ∧
        (g.events_tx ≠ some false →
          (g.get_or_create_node label).1 = Except.ok g.nextId) ∧
        (g.events_tx = some false →
          (g.get_or_create_node label).1 =
            Except.error GraphError.nodeAddedSendFailed)) := by
  constructor
  · intro i h
    exact ⟨getOrCreateCore_present h, gocn_present h⟩
  · intro h
    rw [getOrCreateCore_absent h]
    refine ⟨rfl, rfl, ?_, ?_, ?_, ?_, ?_⟩
    · rw [lookup_insertFresh]
      simp
    · simp [Graph.insertFresh, List.lookup]
    · rw [gocn_graph_eq, getOrCreateCore_absent h]
    · intro htx
      rcases hc : g.events_tx with _ | al
      · rw [gocn_absent_none h hc]
      · cases al
        · exact absurd hc htx
        · rw [gocn_absent_alive h hc]
    · intro htx
      rw [gocn_absent_dropped h htx]

/-- Witness for `get_or_create_contract` at the present label "root" of a
fresh graph. -/
theorem get_or_create_contract_witness :
    Graph.new.get_or_create_node "root" = (Except.ok 0, Graph.new, []) :=
  (((get_or_create_contract Graph.new "root").1 0 (by decide)).2)

/-- C3.  On a fresh graph, one `add_edge("parent","child")` call enqueues
exactly `NodeAdded("parent")`, `NodeAdded("child")`,
`EdgeAdded("parent","child")`, in that order — no more, no fewer. -/
theorem single_add_edge_event_order :
    (Graph.new.add_edge "parent" "child").2.2 =
      [GraphEvent.NodeAdded "parent", GraphEvent.NodeAdded "child",
        GraphEvent.EdgeAdded "parent" "child"] := by decide

/-- C4.  Over any sequence of operations from a fresh graph, `NodeAdded(L)`
is emitted exactly once if the sequence inserts `L` into the registry (and
`L` is not the pre-existing "root"), otherwise never; moreover each
individual operation of the sequence emits `NodeAdded(L)` exactly when it is
the operation that first inserts `L`. -/
theorem node_added_emitted_once (ops : List Op) (L : String) :
    ((Graph.new.runOps ops).2).count (GraphEvent.NodeAdded L) =
      (if (Graph.new.runOps ops).1.containsLabel L &&
          !(Graph.new.containsLabel L) then 1 else 0) ∧
    ∀ (pre : List Op) (o : Op) (post : List Op), ops = pre ++ o :: post →
      (((Graph.new.runOps pre).1.runOp o).2).count (GraphEvent.NodeAdded L) =
        (if ((Graph.new.runOps pre).1.runOp o).1.containsLabel L &&
            !((Graph.new.runOps pre).1.containsLabel L) then 1 else 0) := by
  constructor
  · exact runOps_count rfl
  · intro pre o post hsplit
    have htx : (Graph.new.runOps pre).1.events_tx = some true := by
      rw [runOps_tx]
      rfl
    exact runOp_count o L htx

/-- Witness for `node_added_emitted_once`: the singleton sequence that
creates "a" emits `NodeAdded("a")` at that operation. -/
theorem node_added_emitted_once_witness :
    (((Graph.new.runOps []).1.runOp (Op.getOrCreate "a")).2).count
        (GraphEvent.NodeAdded "a") =
      (if ((Graph.new.runOps []).1.runOp (Op.getOrCreate "a")).1.containsLabel
          "a" && !((Graph.new.runOps []).1.containsLabel "a") then 1
        else 0) :=
  (node_added_emitted_once [Op.getOrCreate "a"] "a").2 [] (Op.getOrCreate "a")
    [] rfl

/-- C5 (counterexample).  With the receiver dropped, `add_edge("a","b")` on
a fresh graph fails at the parent's `NodeAdded` send: "a" is committed but
"b" is never created, so the post-state differs from the post-state of the
same successful call (which does contain "b"). -/
theorem delivery_error_poststate_differs :
    ((Graph.new.dropReceiver).add_edge "a" "b").1 =
      Except.error GraphError.nodeAddedSendFailed ∧
    ((Graph.new.dropReceiver).add_edge "a" "b").2.1.containsLabel "a" =
      true ∧
    ((Graph.new.dropReceiver).add_edge "a" "b").2.1.containsLabel "b" =
      false ∧
    (Graph.new.add_edge "a" "b").2.1.containsLabel "b" = true := by decide

/-- C5 (amended).  When the receiver has been dropped and the failing send
is the `EdgeAdded` one (both labels already registered, edge not yet
present), `add_edge` returns the delivery error `eventDropped` — distinct
from any duplicate-edge outcome — after the edge append has committed: the
post-state equals the post-state of the same call with a live receiver
(up to the channel flag), and that call succeeds. -/
theorem edge_send_failure_commits (g : Graph) (p c : String) (pid cid : Nat)
    (htx : g.events_tx = some false)
    (hp : g.nodes.lookup p = some pid)
    (hc : g.nodes.lookup c = some cid)
    (hdup : g.edgeExists p c = false) :
    (g.add_edge p c).1 = Except.error GraphError.eventDropped ∧
    (g.add_edge p c).2.2 = [] ∧
    (g.add_edge p c).2.1 =
      { ({ g with events_tx := some true }.add_edge p c).2.1 with
        events_tx := some false } ∧
    ({ g with events_tx := some true }.add_edge p c).1 = Except.ok () := by
  have e1 := gocn_present (g := g) hp
  have e2 := gocn_present (g := g) hc
  have e1a := gocn_present (g := { g with events_tx := some true })
    (show ({ g with events_tx := some true } : Graph).nodes.lookup p =
      some pid from hp)
  have e2a := gocn_present (g := { g with events_tx := some true })
    (show ({ g with events_tx := some true } : Graph).nodes.lookup c =
      some cid from hc)
  have hdup' : ((g.childrenOf pid).any fun j => g.isAlive j && j == cid)
      = false := by
    simpa [Graph.edgeExists, hp, hc] using hdup
  have hdupa : ((({ g with events_tx := some true } : Graph).childrenOf
      pid).any fun j =>
        ({ g with events_tx := some true } : Graph).isAlive j && j == cid)
      = false := hdup'
  refine ⟨?_, ?_, ?_, ?_⟩
  · simp [Graph.add_edge, e1, e2, hdup', htx]
  · simp [Graph.add_edge, e1, e2, hdup', htx]
  · simp [Graph.add_edge, e1, e2, e1a, e2a, hdup', hdupa, htx]
  · simp [Graph.add_edge, e1a, e2a, hdupa]

/-- Witness for `edge_send_failure_commits`: on `gDropped`, adding the
absent edge b → root fails with the delivery error. -/
theorem edge_send_failure_commits_witness :
    (gDropped.add_edge "b" "root").1 = Except.error GraphError.eventDropped :=
  (edge_send_failure_commits gDropped "b" "root" 1 0 (by decide) (by decide)
    (by decide) (by decide)).1

/-- C6.  Self-loops need no special case: the first
`add_edge("root","root")` succeeds and root's children hold exactly one
reference that is identity-equal to root (id 0, the root id, still alive);
the repeated identical call performs no second insertion (the graph is
unchanged) — but, contradicting the claim and the repository's tests, that
second call also returns `Ok(())` rather than failing. -/
theorem self_loop_behavior :
    (Graph.new.add_edge "root" "root").1 = Except.ok () ∧
    (Graph.new.add_edge "root" "root").2.1.childrenOf 0 = [0] ∧
    (Graph.new.add_edge "root" "root").2.1.get_root = 0 ∧
    (Graph.new.add_edge "root" "root").2.1.isAlive 0 = true ∧
    ((Graph.new.add_edge "root" "root").2.1.add_edge "root" "root").1 =
      Except.ok () ∧
    ((Graph.new.add_edge "root" "root").2.1.add_edge "root" "root").2.1 =
      (Graph.new.add_edge "root" "root").2.1 := by decide

/-- C7.  `get_children` resolves the stored references in stored order and
keeps exactly those that still resolve (a sublist of the stored list, with
membership iff the reference is alive); concretely, after building
root → A, root → B and removing A's registry entry directly, root's
`get_children` returns only B — no failure, no placeholder. -/
theorem get_children_filters_dead_refs :
    (∀ (g : Graph) (n : Node), (Node.get_children g n).Sublist n.children) ∧
    (∀ (g : Graph) (n : Node) (i : Nat),
        i ∈ Node.get_children g n ↔ (i ∈ n.children ∧ g.isAlive i = true)) ∧
    ((demoGraph.heap.lookup 0).map (fun n => Node.get_children demoGraph n) =
      some [1, 2]) ∧
    (((demoGraph.removeEntry "A").heap.lookup 0).map
        (fun n => Node.get_children (demoGraph.removeEntry "A") n) =
      some [2]) ∧
    (demoGraph.removeEntry "A").containsLabel "A" = false := by
  refine ⟨?_, ?_, by decide, by decide, by decide⟩
  · intro g n
    exact List.filter_sublist n.children
  · intro g n i
    simp [Node.get_children, List.mem_filter]

/-- C8.  In every state reachable from a fresh graph by the in-scope
operations, the registry maps the root label to the root node, labels are
pairwise distinct (at most one node per label), and `node_count` never
decreases under further operations. -/
theorem registry_invariants (ops : List Op) :
    (Graph.new.runOps ops).1.nodes.lookup "root" =
        some (Graph.new.runOps ops).1.root ∧
    ((Graph.new.runOps ops).1.nodes.map Prod.fst).Nodup ∧
    ∀ more : List Op,
      (Graph.new.runOps ops).1.node_count ≤
        (Graph.new.runOps (ops ++ more)).1.node_count := by
  refine ⟨?_, ?_, ?_⟩
  · have h1 : (Graph.new.runOps ops).1.nodes.lookup "root" = some 0 :=
      runOps_lookup_preserve ops (by decide)
    have h2 : (Graph.new.runOps ops).1.root = 0 := by
      rw [runOps_root]
      rfl
    rw [h1, h2]
  · exact runOps_keys_nodup (by decide)
  · intro more
    rw [runOps_append]
    exact runOps_len

/-- C9.  `contains(L)` is true exactly when `get_node(L)` returns a handle,
and once true it stays true — with `get_node` still returning a handle —
after any sequence of in-scope operations. -/
theorem contains_get_node_consistency (g : Graph) (L : String) :
    (g.containsLabel L = (g.get_node L).isSome) ∧
    (g.containsLabel L = true →
      ∀ ops : List Op,
        (g.runOps ops).1.containsLabel L = true ∧
        ((g.runOps ops).1.get_node L).isSome = true) := by
  constructor
  · rfl
  · intro h ops
    refine ⟨runOps_contains_mono h, ?_⟩
    exact runOps_contains_mono h

/-- Witness for `contains_get_node_consistency`: "root" is still present
after an `add_edge`. -/
theorem contains_get_node_consistency_witness :
    ((Graph.new.runOps [Op.addEdge "a" "b"]).1.get_node "root").isSome =
      true :=
  ((contains_get_node_consistency Graph.new "root").2 (by decide)
    [Op.addEdge "a" "b"]).2

/-- C10.  With the receiver dropped, if either label of
`add_edge(p, c)` is absent, the call fails at a `NodeAdded` send before the
edge step: it returns the NodeAdded delivery error, enqueues nothing (in
particular no `EdgeAdded`), appends no child reference to any node, the
label created before the failing send stays in the registry, and if the
parent already existed the freshly created child does too. -/
theorem node_added_failure_stops_before_edge (g : Graph) (p c : String)
    (htx : g.events_tx = some false)
    (hfresh : g.heap.lookup g.nextId = none)
    (habs : g.containsLabel p = false ∨ g.containsLabel c = false) :
    (g.add_edge p c).1 = Except.error GraphError.nodeAddedSendFailed ∧
    (g.add_edge p c).2.2 = [] ∧
    (∀ i : Nat, (g.add_edge p c).2.1.childrenOf i = g.childrenOf i) ∧
    (g.containsLabel p = false →
      (g.add_edge p c).2.1.containsLabel p = true) ∧
    (g.containsLabel p = true →
      (g.add_edge p c).2.1.containsLabel c = true) := by
  rcases hp : g.nodes.lookup p with _ | pid
  · have e1 := gocn_absent_dropped hp htx
    refine ⟨by simp [Graph.add_edge, e1], by simp [Graph.add_edge, e1],
      ?_, ?_, ?_⟩
    · intro i
      simp only [Graph.add_edge, e1]
      exact childrenOf_insertFresh hfresh i
    · intro _
      simp only [Graph.add_edge, e1]
      simp [Graph.containsLabel, lookup_insertFresh]
    · intro hcp
      rw [Graph.containsLabel, hp] at hcp
      simp at hcp
  · have hcp : g.containsLabel p = true := by
      simp [Graph.containsLabel, hp]
    have hcc : g.containsLabel c = false := by
      rcases habs with hh | hh
      · rw [hcp] at hh
        exact absurd hh (by simp)
      · exact hh
    have hc : g.nodes.lookup c = none := by
      rw [Graph.containsLabel] at hcc
      simpa using hcc
    have e1 := gocn_present hp
    have e2 := gocn_absent_dropped hc htx
    refine ⟨by simp [Graph.add_edge, e1, e2],
      by simp [Graph.add_edge, e1, e2], ?_, ?_, ?_⟩
    · intro i
      simp only [Graph.add_edge, e1, e2]
      exact childrenOf_insertFresh hfresh i
    · intro hcpf
      rw [hcp] at hcpf
      exact absurd hcpf (by simp)
    · intro _
      simp only [Graph.add_edge, e1, e2]
      simp [Graph.containsLabel, lookup_insertFresh]

/-- Witness for `node_added_failure_stops_before_edge` on a fresh graph with
the receiver dropped. -/
theorem node_added_failure_stops_before_edge_witness :
    ((Graph.new.dropReceiver).add_edge "p" "c").1 =
      Except.error GraphError.nodeAddedSendFailed :=
  (node_added_failure_stops_before_edge Graph.new.dropReceiver "p" "c"
    rfl (by decide) (Or.inl (by decide))).1
